import Mathlib

/-!
Shallow embedding of the risk-scoring pipeline
(`app/engine/hhi_engine.py`, `app/engine/hope_engine.py`,
`app/engine/chaotic_risk.py`, `app/engine/risk_integrator.py`).

Python floats are modelled as real numbers.  `round(x, 6)` is modelled by
`round6` below (round to nearest multiple of `10⁻⁶`; Python uses
round-half-to-even at exact ties, `round6` rounds ties up — no statement in
this development sits at an exact tie, so the convention is immaterial).
Fallible code is modelled with `Except`/`Option`.  A second, dynamically
typed layer (`PyVal`, `integrateDyn`) models the duck-typed field lookups of
`risk_integrator.integrate` and of the provocation loop, where a present
non-numeric field makes Python raise.
-/

noncomputable section

/-- `round(x, 6)` of Python: round to the nearest multiple of `10⁻⁶`. -/
def round6 (x : ℝ) : ℝ := (round (x * 1000000) : ℤ) / 1000000

/-- `max(0.0, min(1.0, x))`, the `_norm01` clamp of `chaotic_risk.py`
(the `try/except` around it is dead for numeric input). -/
def norm01 (x : ℝ) : ℝ := max 0 (min 1 x)

/-- `math.log10`. -/
def logTen (x : ℝ) : ℝ := Real.log x / Real.log 10

/-! ### HHI engine (`hhi_engine.py`) -/

/-- One entry of the `items` list built by `compute_hhi_structured`. -/
structure HHIItem where
  isin : String
  weight : ℝ
  pct : ℝ
  pct_sq : ℝ

/-- The success dictionary returned by `compute_hhi_structured`. -/
structure HHIResult where
  hhi : ℝ
  hhi_normalized : ℝ
  n : ℕ
  total_weight : ℝ
  items : List HHIItem

/-- `sum(weights.values())`. -/
def totalWeight (weights : List (String × ℝ)) : ℝ := (weights.map (fun p => p.2)).sum

/-- `HHICalculator.compute_hhi_structured`.  The weight mapping is modelled as
an association list (a Python dict iterated in insertion order). -/
def compute_hhi_structured (weights : List (String × ℝ)) : Except String HHIResult :=
  if weights.isEmpty then .error "No weights provided"
  else
    let total := totalWeight weights
    if total = 0 then .error "Total weights = 0"
    else
      let pcts := weights.map (fun p => p.2 / total)
      let hhi := (pcts.map (fun x => x * x)).sum
      let n := weights.length
      let hhiNormalized : ℝ := if 1 < n then (hhi - 1 / n) / (1 - 1 / n) else 1.0
      .ok { hhi := round6 hhi
            hhi_normalized := round6 hhiNormalized
            n := n
            total_weight := total
            items := weights.map (fun p =>
              { isin := p.1, weight := p.2, pct := round6 (p.2 / total)
                pct_sq := round6 ((p.2 / total) * (p.2 / total)) }) }

/-! ### Hope engine (`hope_engine.py`) -/

/-- The dictionary returned by `HopeEngine.compute_hmi`; `error = none` models
the success dictionary, which carries no `error` key. -/
structure HMIResult where
  hmi : Option ℝ
  hmi_normalized : ℝ
  error : Option String

/-- `HopeEngine.compute_hmi`.  `objective_probability` is `Option ℝ` since the
caller may pass `None`.  The `try/except` around the transform is dead:
`hmi_clipped + 1 ≥ 1`, so `log10` and `exp` never raise. -/
def compute_hmi (market_expectation : ℝ) (objective_probability : Option ℝ) : HMIResult :=
  match objective_probability with
  | none => { hmi := none, hmi_normalized := 0.0, error := some "objective_prob must be > 0" }
  | some o =>
    if o ≤ 0 then { hmi := none, hmi_normalized := 0.0, error := some "objective_prob must be > 0" }
    else
      let hmi := market_expectation / o
      let hmiClipped := min (max hmi 0.0) 1000000
      let norm := 1 - Real.exp (-(logTen (hmiClipped + 1)))
      { hmi := some hmi, hmi_normalized := max 0.0 (min 1.0 norm), error := none }

/-- The dictionary returned by `HopeEngine.aggregate_sentiment_from_sources`. -/
structure SentimentAgg where
  mean : ℝ
  std : ℝ
  count : ℕ

/-- `statistics.pstdev`, the population standard deviation. -/
def pstdev (l : List ℝ) : ℝ :=
  Real.sqrt (((l.map (fun x => (x - l.sum / l.length) * (x - l.sum / l.length))).sum) / l.length)

/-- `HopeEngine.aggregate_sentiment_from_sources`. -/
def aggregate_sentiment_from_sources (sentiments : List ℝ) : SentimentAgg :=
  if sentiments.isEmpty then { mean := 0.0, std := 0.0, count := 0 }
  else
    { mean := round6 (sentiments.sum / sentiments.length)
      std := round6 (if 1 < sentiments.length then pstdev sentiments else 0.0)
      count := sentiments.length }

/-! ### Chaotic risk layer (`chaotic_risk.py`) -/

/-- The configuration read in `ChaoticRisk.__init__`. -/
structure CRConfig where
  w_institutional : ℝ
  w_individual : ℝ
  w_vector_coherence : ℝ
  w_confidence : ℝ
  global_dampen : ℝ

/-- The default configuration (`config=None`): `1.5, 1.0, 1.0, 1.0, 0.9`. -/
def defaultConfig : CRConfig := ⟨1.5, 1.0, 1.0, 1.0, 0.9⟩

/-- A provocation signal as consumed by the loop of
`compute_from_provocations` (fields `id`/`timestamp` are never read). -/
structure Provocation where
  intensity : ℝ
  source_type : String
  confidence : ℝ
  vector : String

/-- The NUR macro-signal struct: the fields the engines read, each possibly
absent. -/
structure NurSignal where
  severity_score : Option ℝ
  severity : Option ℝ

/-- The RSZ macro-signal struct: the fields the engines read. -/
structure RszSignal where
  stability_score : Option ℝ
  action_weight : Option ℝ

/-- The cycles macro-signal struct. -/
structure CycleSignal where
  cycle_pressure : Option ℝ

/-- The dictionary returned by `compute_from_provocations`; `components` keeps
the insertion order of the Python dict literal. -/
structure CRResult where
  cr_scalar : ℝ
  components : List (String × ℝ)
  flags : List String

/-- `_entropy_of_weights`: normalized Shannon entropy of a weight list. -/
def entropy_of_weights (weights : List ℝ) : ℝ :=
  if weights.isEmpty then 0.0
  else
    let s := weights.sum
    if s ≤ 0 then 0.0
    else
      let ps := (weights.filter (fun w => 0 < w)).map (fun w => w / s)
      if ps.isEmpty then 0.0
      else
        let ent := -((ps.map (fun p => p * Real.log (p + 1e-12))).sum)
        let maxEnt := Real.log ps.length
        if 0 < maxEnt then ent / maxEnt else 0.0

/-- `(p.get("source_type") or "individual").lower()`: the class string of a
signal (an empty string is falsy in Python and falls back to
`"individual"`). -/
def srcOf (p : Provocation) : String :=
  (if p.source_type = "" then "individual" else p.source_type).toLower

/-- Whether a signal is institutional-like: `src in ("institutional", "state", "agency")`. -/
def isInst (p : Provocation) : Bool :=
  srcOf p == "institutional" || srcOf p == "state" || srcOf p == "agency"

/-- `p.get("vector") or "unknown"`. -/
def vectOf (p : Provocation) : String := if p.vector = "" then "unknown" else p.vector

/-- `weighted = intensity * weight` with the class weight of the signal. -/
def weightedOf (cfg : CRConfig) (p : Provocation) : ℝ :=
  p.intensity * (if isInst p then cfg.w_institutional else cfg.w_individual)

/-- `sum(inst_vals)`. -/
def sumInst (cfg : CRConfig) (ps : List Provocation) : ℝ :=
  ((ps.filter (fun p => isInst p)).map (fun p => weightedOf cfg p)).sum

/-- `sum(ind_vals)`. -/
def sumInd (cfg : CRConfig) (ps : List Provocation) : ℝ :=
  ((ps.filter (fun p => !isInst p)).map (fun p => weightedOf cfg p)).sum

/-- The distinct vector labels (the key set of `vector_map`; only the
multiset of accumulated energies matters downstream, so the Python
insertion order is abstracted away). -/
def vectKeys (ps : List Provocation) : List String := (ps.map (fun p => vectOf p)).dedup

/-- `vector_map[vect]`: accumulated `abs(weighted)` for one vector label. -/
def vecEnergy (cfg : CRConfig) (ps : List Provocation) (v : String) : ℝ :=
  ((ps.filter (fun p => vectOf p == v)).map (fun p => |weightedOf cfg p|)).sum

/-- `list(vector_map.values())`. -/
def vectorWeights (cfg : CRConfig) (ps : List Provocation) : List ℝ :=
  (vectKeys ps).map (fun v => vecEnergy cfg ps v)

/-- `statistics.mean(confidences) if confidences else 0.0`. -/
def avgConf (ps : List Provocation) : ℝ :=
  if ps.isEmpty then 0.0 else (ps.map (fun p => p.confidence)).sum / ps.length

/-- `nur_amp = 1.0 + _norm01(nur_severity)`. -/
def nurAmp (severity : ℝ) : ℝ := 1.0 + norm01 severity

/-- `rsz_damp = 1.2 - (_norm01(rsz_stability) * 0.7)`. -/
def rszDamp (stability : ℝ) : ℝ := 1.2 - norm01 stability * 0.7

/-- `float(nur.get("severity_score", nur.get("severity", 0.0) or 0.0))` for a
well-typed NUR struct (`or 0.0` is the identity on floats, and the
`try/except` is dead for numeric fields). -/
def nurSeverityOf (nur : NurSignal) : ℝ := nur.severity_score.getD (nur.severity.getD 0.0)

/-- `float(rsz.get("stability_score", rsz.get("action_weight", 0.0) or 0.0))`
for a well-typed RSZ struct. -/
def rszStabilityOf (rsz : RszSignal) : ℝ := rsz.stability_score.getD (rsz.action_weight.getD 0.0)

/-- The body of `compute_from_provocations` after the empty-list early return,
with the two macro severities already extracted (lines 60-165 of
`chaotic_risk.py`).  The `try/except` around the compression models the
`log10` domain error (`total_energy + 1 ≤ 0`) and the division by zero
(`scale + 1e-6 = 0`), both of which yield `compressed = 0.0`. -/
def computeCR (cfg : CRConfig) (ps : List Provocation) (nurSeverity rszStability : ℝ) : CRResult :=
  let sInst := sumInst cfg ps
  let sInd := sumInd cfg ps
  let totalEnergy := sInst + sInd + 1e-12
  let entropy := entropy_of_weights (vectorWeights cfg ps)
  let coherence := 1.0 - entropy
  let avg := avgConf ps
  let raw := (sInst + sInd) * (1.0 + cfg.w_vector_coherence * coherence) *
      (1.0 + cfg.w_confidence * avg)
  let amp := nurAmp nurSeverity
  let damp := rszDamp rszStability
  let modulated := raw * amp * damp
  let scale := 1.0 + logTen (totalEnergy + 1.0)
  let compressed :=
    if 0 < totalEnergy + 1.0 ∧ scale + 1e-6 ≠ 0 then
      Real.arctan (modulated / (scale + 1e-6)) / (Real.pi / 2)
    else 0.0
  let crScalar := norm01 (compressed * cfg.global_dampen)
  { cr_scalar := round6 crScalar
    components :=
      [("sum_institutional", round6 sInst),
       ("sum_individual", round6 sInd),
       ("total_energy", round6 totalEnergy),
       ("vector_count", ((vectKeys ps).length : ℝ)),
       ("vector_coherence", round6 coherence),
       ("avg_confidence", round6 avg),
       ("nur_amp", round6 amp),
       ("rsz_damp", round6 damp),
       ("raw_modulated", round6 modulated),
       ("compressed", round6 compressed)]
    flags :=
      (if coherence > 0.8 ∧ totalEnergy > 10.0 then ["FOCUSED_HIGH_INTENSITY"] else []) ++
      (if sInst > 0.6 * totalEnergy ∧ totalEnergy > 1.0 then ["INSTITUTIONAL_DOMINANCE"] else []) ++
      (if avg < 0.25 ∧ totalEnergy > 2.0 then ["LOW_CONFIDENCE_NOISE"] else []) }

/-- `ChaoticRisk.compute_from_provocations` for well-typed input. -/
def compute_from_provocations (cfg : CRConfig) (provocations : List Provocation)
    (nur : NurSignal) (rsz : RszSignal) : CRResult :=
  if provocations.isEmpty then { cr_scalar := 0.0, components := [], flags := [] }
  else computeCR cfg provocations (nurSeverityOf nur) (rszStabilityOf rsz)

/-! ### Risk integrator (`risk_integrator.py`) -/

/-- The composite dictionary of `RiskIntegrator.integrate` (the dict also
echoes the raw `nur`, `rsz`, `cycles` and `provocations` inputs unchanged;
those pass-through fields are omitted here). -/
structure CompositeRiskResult where
  portfolio_hhi : Except String HHIResult
  hope : HMIResult
  sentiment_agg : SentimentAgg
  chaotic_risk : CRResult
  composite : ℝ
  risk_level : String

/-- The weighted combination of line 48 of `risk_integrator.py`. -/
def compositeOf (hhiN nurS rszS cyclesS hopeN crS : ℝ) : ℝ :=
  0.20 * hhiN + 0.15 * nurS + 0.10 * rszS + 0.15 * cyclesS + 0.20 * hopeN + 0.20 * crS

/-- The threshold ladder of lines 57-65 of `risk_integrator.py`. -/
def riskLevelOf (composite : ℝ) : String :=
  if composite > 0.65 then "DANGER"
  else if composite > 0.4 then "ELEVATED"
  else if composite > 0.2 then "WATCH"
  else "STABLE"

/-- `hhi_struct.get("hhi_normalized", 0.0)`: the error dictionary carries no
`hhi_normalized` key, so the lookup falls back to `0.0`. -/
def hhiNormOf : Except String HHIResult → ℝ
  | .ok r => r.hhi_normalized
  | .error _ => 0.0

/-- `weights = {p["isin"]: p.get("weight", 0.0) for p in portfolio}`: dict
construction, a later duplicate isin overwrites the weight in place. -/
def buildWeights (portfolio : List (String × ℝ)) : List (String × ℝ) :=
  portfolio.foldl
    (fun acc q =>
      if acc.any (fun e => e.1 == q.1) then
        acc.map (fun e => if e.1 == q.1 then (e.1, q.2) else e)
      else acc ++ [q]) []

/-- `RiskIntegrator.integrate` for well-typed input.  The module-level
singleton `risk_integrator = RiskIntegrator()` is built with the default
chaotic-risk configuration. -/
def integrate (portfolio : List (String × ℝ)) (nur : NurSignal) (rsz : RszSignal)
    (cycles : CycleSignal) (market_expectation objective_prob : Option ℝ)
    (sentiments : List ℝ) (provocations : List Provocation) : CompositeRiskResult :=
  let hhiStruct := compute_hhi_structured (buildWeights portfolio)
  let hopeRes :=
    match market_expectation, objective_prob with
    | some m, some o => compute_hmi m (some o)
    | _, _ => { hmi := none, hmi_normalized := 0.0, error := none }
  let sentimentAgg := aggregate_sentiment_from_sources sentiments
  let nurScore := nur.severity_score.getD 0.0
  let rszScore := rsz.action_weight.getD 0.0
  let cyclesScore := cycles.cycle_pressure.getD 0.0
  let crRes := compute_from_provocations defaultConfig provocations nur rsz
  let composite :=
    compositeOf (hhiNormOf hhiStruct) nurScore rszScore cyclesScore
      hopeRes.hmi_normalized crRes.cr_scalar
  { portfolio_hhi := hhiStruct
    hope := hopeRes
    sentiment_agg := sentimentAgg
    chaotic_risk := crRes
    composite := round6 composite
    risk_level := riskLevelOf composite }

/-! ### Dynamically-typed layer for malformed optional sub-fields

`risk_integrator.integrate` and the provocation loop of
`chaotic_risk.compute_from_provocations` read fields out of plain dicts.  A
field can be absent, `None`, a number, or some other value.  `PyVal` models
the value space: `vnone` is Python `None` (falsy; `float(None)` and
`0.15 * None` raise), `num x` is a float, and `obj` stands for any truthy
non-numeric value (for example a non-numeric string: `float()` of it raises,
as does multiplying it by a float).  Numeric strings, which `float()` would
parse, are outside the modelled value space.  A raised exception is
modelled as `Option.none` in the result. -/

inductive PyVal where
  | vnone : PyVal
  | num (x : ℝ) : PyVal
  | obj : PyVal

/-- `v or 0.0`: `None` is falsy and becomes `0.0`; a float keeps its value
(`0.0 or 0.0` is again `0.0`); a truthy non-numeric value passes through. -/
def pyOrZero : PyVal → PyVal
  | .vnone => .num 0.0
  | .num x => .num x
  | .obj => .obj

/-- `float(v)` (also the float arithmetic of the composite step): succeeds
exactly on numbers, raises otherwise. -/
def pyFloat : PyVal → Option ℝ
  | .num x => some x
  | _ => none

/-- A raw provocation dict as read by the loop (`id`/`timestamp` unread). -/
structure RawProv where
  intensity : Option PyVal
  source_type : Option String
  confidence : Option PyVal
  vector : Option String

/-- A raw NUR dict. -/
structure RawNur where
  severity_score : Option PyVal
  severity : Option PyVal

/-- A raw RSZ dict. -/
structure RawRsz where
  stability_score : Option PyVal
  action_weight : Option PyVal

/-- A raw cycles dict. -/
structure RawCycles where
  cycle_pressure : Option PyVal

/-- Lines 67-70 of `chaotic_risk.py`:
`intensity = float(p.get("intensity", 0.0) or 0.0)` and
`conf = float(p.get("confidence", 0.0) or 0.0)`; `none` models the raised
`TypeError`/`ValueError` on a truthy non-numeric field. -/
def extractProv (q : RawProv) : Option Provocation :=
  match pyFloat (pyOrZero (q.intensity.getD (.num 0.0))),
      pyFloat (pyOrZero (q.confidence.getD (.num 0.0))) with
  | some i, some c =>
    some { intensity := i, source_type := q.source_type.getD "",
           confidence := c, vector := q.vector.getD "" }
  | _, _ => none

/-- Lines 106-110 of `chaotic_risk.py`: the `try/except` degrades any failed
`float(...)` conversion to `0.0`. -/
def nurSeverityDyn (n : RawNur) : ℝ :=
  (pyFloat (n.severity_score.getD (pyOrZero (n.severity.getD (.num 0.0))))).getD 0.0

/-- Lines 112-117 of `chaotic_risk.py`. -/
def rszStabilityDyn (r : RawRsz) : ℝ :=
  (pyFloat (r.stability_score.getD (pyOrZero (r.action_weight.getD (.num 0.0))))).getD 0.0

/-- `compute_from_provocations` on raw dicts: the empty sequence returns the
zero result before touching any field; otherwise every provocation field is
converted (raising on truthy non-numeric values), while the macro-signal
extraction can never raise. -/
def crDyn (cfg : CRConfig) (raws : List RawProv) (n : RawNur) (r : RawRsz) : Option CRResult :=
  if raws.isEmpty then some { cr_scalar := 0.0, components := [], flags := [] }
  else
    match raws.mapM extractProv with
    | some ps => some (computeCR cfg ps (nurSeverityDyn n) (rszStabilityDyn r))
    | none => none

/-- `RiskIntegrator.integrate` on raw dicts.  Lines 39-41 read the three
macro scores with `.get(..., 0.0)` — without `or` and without `float()` — so
a present non-numeric value (including `None`) reaches line 48 where
`0.15 * score` raises. -/
def integrateDyn (portfolio : List (String × ℝ)) (n : RawNur) (r : RawRsz) (c : RawCycles)
    (market_expectation objective_prob : Option ℝ) (sentiments : List ℝ)
    (raws : List RawProv) : Option CompositeRiskResult :=
  let hhiStruct := compute_hhi_structured (buildWeights portfolio)
  let hopeRes :=
    match market_expectation, objective_prob with
    | some m, some o => compute_hmi m (some o)
    | _, _ => { hmi := none, hmi_normalized := 0.0, error := none }
  let sentimentAgg := aggregate_sentiment_from_sources sentiments
  let nurScoreV := n.severity_score.getD (.num 0.0)
  let rszScoreV := r.action_weight.getD (.num 0.0)
  let cycScoreV := c.cycle_pressure.getD (.num 0.0)
  match crDyn defaultConfig raws n r with
  | none => none
  | some crRes =>
    match pyFloat nurScoreV, pyFloat rszScoreV, pyFloat cycScoreV with
    | some ns, some rs, some cs =>
      let composite :=
        compositeOf (hhiNormOf hhiStruct) ns rs cs hopeRes.hmi_normalized crRes.cr_scalar
      some { portfolio_hhi := hhiStruct, hope := hopeRes, sentiment_agg := sentimentAgg,
             chaotic_risk := crRes, composite := round6 composite,
             risk_level := riskLevelOf composite }
    | _, _, _ => none

/-- The well-typed reading of a raw field that survives the chaotic-risk
`try/except`: a failed conversion collapses to `0`. -/
def degradePy (o : Option PyVal) : Option ℝ := o.map (fun v => (pyFloat (pyOrZero v)).getD 0.0)

/-- The typed NUR struct a benign raw NUR dict denotes. -/
def liftNur (n : RawNur) : NurSignal :=
  { severity_score := n.severity_score.bind pyFloat, severity := degradePy n.severity }

/-- The typed RSZ struct a raw RSZ dict denotes. -/
def liftRsz (r : RawRsz) : RszSignal :=
  { stability_score := degradePy r.stability_score,
    action_weight := r.action_weight.bind pyFloat }

/-- The typed cycles struct a benign raw cycles dict denotes. -/
def liftCycles (c : RawCycles) : CycleSignal :=
  { cycle_pressure := c.cycle_pressure.bind pyFloat }

/-- The typed provocation a benign raw provocation denotes. -/
def liftProv (q : RawProv) : Provocation :=
  { intensity := (pyFloat (pyOrZero (q.intensity.getD (.num 0.0)))).getD 0.0
    source_type := q.source_type.getD ""
    confidence := (pyFloat (pyOrZero (q.confidence.getD (.num 0.0)))).getD 0.0
    vector := q.vector.getD "" }

/-- A macro field the integrator can multiply: absent or numeric. -/
def benignVal (o : Option PyVal) : Prop := o = none ∨ ∃ x, o = some (PyVal.num x)

/-- A provocation field `float(… or 0.0)` accepts: absent, `None` or numeric. -/
def benignPy (v : Option PyVal) : Prop :=
  v = none ∨ v = some PyVal.vnone ∨ ∃ x, v = some (PyVal.num x)

/-- A provocation entry whose numeric fields are all benign. -/
def provBenign (q : RawProv) : Prop := benignPy q.intensity ∧ benignPy q.confidence

/-! ### Helper lemmas about rounding and clamping -/

lemma round_int_le_of_lt {y : ℝ} {k : ℤ} (h : y < k + 1 / 2) : round y ≤ k := by
  rw [round_eq, ← Int.lt_add_one_iff, Int.floor_lt]
  push_cast
  linarith

lemma round_int_nonneg {y : ℝ} (h : 0 ≤ y) : 0 ≤ round y := by
  rw [round_eq, Int.le_floor]
  push_cast
  linarith

lemma round6_nonneg {x : ℝ} (h : 0 ≤ x) : 0 ≤ round6 x := by
  have h0 : (0 : ℤ) ≤ round (x * 1000000) := round_int_nonneg (by positivity)
  have : (0 : ℝ) ≤ (round (x * 1000000) : ℤ) := by exact_mod_cast h0
  unfold round6
  positivity

lemma round6_le_one {x : ℝ} (h : x ≤ 1) : round6 x ≤ 1 := by
  have hk : round (x * 1000000) ≤ (1000000 : ℤ) := round_int_le_of_lt (by push_cast; linarith)
  have : ((round (x * 1000000) : ℤ) : ℝ) ≤ 1000000 := by exact_mod_cast hk
  unfold round6
  rw [div_le_one (by norm_num)]
  exact this

lemma round6_le_nine_tenths {x : ℝ} (h : x < 0.9) : round6 x ≤ 0.9 := by
  have hk : round (x * 1000000) ≤ (900000 : ℤ) := round_int_le_of_lt (by push_cast; linarith)
  have : ((round (x * 1000000) : ℤ) : ℝ) ≤ 900000 := by exact_mod_cast hk
  unfold round6
  rw [div_le_iff₀ (by norm_num)]
  linarith

lemma sub_le_round6 {x : ℝ} : x - 1 / 2000000 ≤ round6 x := by
  have h := sub_half_lt_round (x * 1000000)
  unfold round6
  rw [le_div_iff₀ (by norm_num : (0:ℝ) < 1000000)]
  linarith

lemma round6_zero : round6 0 = 0 := by
  simp [round6]

lemma round6_one : round6 1 = 1 := by
  have h : round ((1 : ℝ) * 1000000) = 1000000 := by
    rw [show (1 : ℝ) * 1000000 = ((1000000 : ℤ) : ℝ) by norm_num, round_intCast]
  rw [round6, h]
  norm_num

lemma norm01_nonneg (x : ℝ) : 0 ≤ norm01 x := le_max_left 0 _

lemma norm01_le_one (x : ℝ) : norm01 x ≤ 1 :=
  max_le (by norm_num) (min_le_left 1 x)

lemma norm01_lt {x c : ℝ} (hc : 0 < c) (h : x < c) : norm01 x < c :=
  max_lt hc (lt_of_le_of_lt (min_le_right 1 x) h)

lemma ite_arctan_mul_damp_lt {P : Prop} [Decidable P] (a d : ℝ) (hd : 0 < d) :
    (if P then Real.arctan a / (Real.pi / 2) else 0.0) * d < d := by
  have h1 : (if P then Real.arctan a / (Real.pi / 2) else 0.0) < 1 := by
    split_ifs
    · exact (div_lt_one Real.pi_div_two_pos).mpr (Real.arctan_lt_pi_div_two _)
    · norm_num
  nlinarith

lemma list_sum_map_div (ws : List (String × ℝ)) (t : ℝ) :
    (ws.map (fun p => p.2 / t)).sum = totalWeight ws / t := by
  induction ws with
  | nil => simp [totalWeight]
  | cons a l ih =>
    simp only [totalWeight, List.map_cons, List.sum_cons] at ih ⊢
    rw [ih, add_div]

lemma list_sum_map_const {α : Type} (l : List α) (f : α → ℝ) (c : ℝ)
    (h : ∀ a ∈ l, f a = c) : (l.map f).sum = l.length * c := by
  induction l with
  | nil => simp
  | cons a s ih =>
    simp only [List.map_cons, List.sum_cons, List.length_cons]
    rw [h a (by simp), ih (fun b hb => h b (by simp [hb]))]
    push_cast
    ring

/-- Cauchy–Schwarz for list sums: `(Σ x)² ≤ n · Σ x²`. -/
lemma sq_sum_le_length_mul_sum_sq (l : List ℝ) :
    l.sum ^ 2 ≤ (l.length : ℝ) * (l.map (fun x => x * x)).sum := by
  induction l with
  | nil => simp
  | cons a s ih =>
    have hq : 0 ≤ (s.map (fun x => x * x)).sum := by
      apply List.sum_nonneg
      intro x hx
      obtain ⟨y, _, rfl⟩ := List.mem_map.mp hx
      exact mul_self_nonneg y
    rcases Nat.eq_zero_or_pos s.length with h0 | hpos
    · have hs : s = [] := List.length_eq_zero.mp h0
      subst hs
      simp only [List.map_cons, List.sum_cons, List.length_cons, List.map_nil,
        List.sum_nil, List.length_nil]
      push_cast
      nlinarith [sq_nonneg a]
    · have h1 : (1 : ℝ) ≤ s.length := by exact_mod_cast hpos
      simp only [List.map_cons, List.sum_cons, List.length_cons]
      push_cast
      nlinarith [ih, hq, sq_nonneg ((s.length : ℝ) * a - s.sum), h1,
        sq_nonneg (a - s.sum), sq_nonneg (a + s.sum)]

/-- The success branch of `compute_hhi_structured`, spelled out. -/
lemma compute_hhi_ok_spec (ws : List (String × ℝ)) (hne : ws.isEmpty = false)
    (h0 : totalWeight ws ≠ 0) :
    compute_hhi_structured ws = Except.ok
      { hhi := round6 (((ws.map (fun p => p.2 / totalWeight ws)).map (fun x => x * x)).sum)
        hhi_normalized := round6 (if 1 < ws.length then
          ((((ws.map (fun p => p.2 / totalWeight ws)).map (fun x => x * x)).sum)
              - 1 / (ws.length : ℝ)) / (1 - 1 / (ws.length : ℝ))
          else 1.0)
        n := ws.length
        total_weight := totalWeight ws
        items := ws.map (fun p =>
          { isin := p.1, weight := p.2, pct := round6 (p.2 / totalWeight ws)
            pct_sq := round6 ((p.2 / totalWeight ws) * (p.2 / totalWeight ws)) }) } := by
  simp only [compute_hhi_structured, hne, Bool.false_eq_true, if_false, if_neg h0]

lemma riskLevelOf_stable {c : ℝ} (h : c ≤ 0.2) : riskLevelOf c = "STABLE" := by
  unfold riskLevelOf
  rw [if_neg (by push_neg; linarith), if_neg (by push_neg; linarith),
    if_neg (by push_neg; linarith)]

lemma riskLevelOf_danger {c : ℝ} (h : c > 0.65) : riskLevelOf c = "DANGER" := by
  unfold riskLevelOf
  rw [if_pos h]

/-! ### Claims -/

/-- C1: for every input to `RiskIntegrator.integrate`, the composite score
equals `0.20*hhi_normalized + 0.15*nur_score + 0.10*rsz_score +
0.15*cycles_score + 0.20*hope_norm + 0.20*cr_scalar` (the returned
`composite` field is that value rounded to 6 decimal places), and
`risk_level` is the threshold ladder DANGER/ELEVATED/WATCH/STABLE applied to
that composite. -/
theorem claim_C1_composite_formula_and_risk_level (portfolio : List (String × ℝ))
    (nur : NurSignal) (rsz : RszSignal) (cycles : CycleSignal)
    (me op : Option ℝ) (sents : List ℝ) (provs : List Provocation) :
    (integrate portfolio nur rsz cycles me op sents provs).composite =
      round6 (0.20 * hhiNormOf (integrate portfolio nur rsz cycles me op sents provs).portfolio_hhi
        + 0.15 * nur.severity_score.getD 0.0
        + 0.10 * rsz.action_weight.getD 0.0
        + 0.15 * cycles.cycle_pressure.getD 0.0
        + 0.20 * (integrate portfolio nur rsz cycles me op sents provs).hope.hmi_normalized
        + 0.20 * (integrate portfolio nur rsz cycles me op sents provs).chaotic_risk.cr_scalar) ∧
    (integrate portfolio nur rsz cycles me op sents provs).risk_level =
      riskLevelOf
        (0.20 * hhiNormOf (integrate portfolio nur rsz cycles me op sents provs).portfolio_hhi
        + 0.15 * nur.severity_score.getD 0.0
        + 0.10 * rsz.action_weight.getD 0.0
        + 0.15 * cycles.cycle_pressure.getD 0.0
        + 0.20 * (integrate portfolio nur rsz cycles me op sents provs).hope.hmi_normalized
        + 0.20 * (integrate portfolio nur rsz cycles me op sents provs).chaotic_risk.cr_scalar) :=
  ⟨rfl, rfl⟩

/-- C2: the composite is monotone non-decreasing in each of the six
sub-scores (simultaneously, hence in each one holding the others fixed);
all sub-scores 0 gives composite 0 and STABLE, all 1 gives composite 1.0
and DANGER. -/
theorem claim_C2_monotone_and_endpoints
    (a₁ a₂ b₁ b₂ c₁ c₂ d₁ d₂ e₁ e₂ f₁ f₂ : ℝ)
    (ha : a₁ ≤ a₂) (hb : b₁ ≤ b₂) (hc : c₁ ≤ c₂)
    (hd : d₁ ≤ d₂) (he : e₁ ≤ e₂) (hf : f₁ ≤ f₂) :
    compositeOf a₁ b₁ c₁ d₁ e₁ f₁ ≤ compositeOf a₂ b₂ c₂ d₂ e₂ f₂ ∧
    compositeOf 0 0 0 0 0 0 = 0 ∧
    riskLevelOf (compositeOf 0 0 0 0 0 0) = "STABLE" ∧
    compositeOf 1 1 1 1 1 1 = 1 ∧
    riskLevelOf (compositeOf 1 1 1 1 1 1) = "DANGER" := by
  have h0 : compositeOf 0 0 0 0 0 0 = 0 := by norm_num [compositeOf]
  have h1 : compositeOf 1 1 1 1 1 1 = 1 := by norm_num [compositeOf]
  refine ⟨?_, h0, ?_, h1, ?_⟩
  · unfold compositeOf
    linarith
  · rw [h0]
    exact riskLevelOf_stable (by norm_num)
  · rw [h1]
    exact riskLevelOf_danger (by norm_num)

/-- Witness for C2 at the concrete sub-score vectors `(0,…,0) ≤ (1,…,1)`. -/
theorem claim_C2_witness :
    compositeOf 0 0 0 0 0 0 ≤ compositeOf 1 1 1 1 1 1 ∧
    compositeOf 0 0 0 0 0 0 = 0 ∧
    riskLevelOf (compositeOf 0 0 0 0 0 0) = "STABLE" ∧
    compositeOf 1 1 1 1 1 1 = 1 ∧
    riskLevelOf (compositeOf 1 1 1 1 1 1) = "DANGER" :=
  claim_C2_monotone_and_endpoints 0 1 0 1 0 1 0 1 0 1 0 1
    zero_le_one zero_le_one zero_le_one zero_le_one zero_le_one zero_le_one

/-- C3: `cr_scalar` always lies in `[0,1]`, and the modulation factors
satisfy `nur_amp = 1 + clamp(severity) ∈ [1,2]` and
`rsz_damp = 1.2 − clamp(stability)·0.7 ∈ [0.5,1.2]`. -/
theorem claim_C3_cr_scalar_and_modulation_bounds (cfg : CRConfig)
    (ps : List Provocation) (nur : NurSignal) (rsz : RszSignal) :
    (0 ≤ (compute_from_provocations cfg ps nur rsz).cr_scalar ∧
      (compute_from_provocations cfg ps nur rsz).cr_scalar ≤ 1) ∧
    (1 ≤ nurAmp (nurSeverityOf nur) ∧ nurAmp (nurSeverityOf nur) ≤ 2) ∧
    (0.5 ≤ rszDamp (rszStabilityOf rsz) ∧ rszDamp (rszStabilityOf rsz) ≤ 1.2) := by
  refine ⟨?_, ⟨?_, ?_⟩, ⟨?_, ?_⟩⟩
  · unfold compute_from_provocations
    split_ifs with h
    · norm_num
    · simp only [computeCR]
      exact ⟨round6_nonneg (norm01_nonneg _), round6_le_one (norm01_le_one _)⟩
  · have := norm01_nonneg (nurSeverityOf nur)
    unfold nurAmp
    linarith
  · have := norm01_le_one (nurSeverityOf nur)
    unfold nurAmp
    linarith
  · have := norm01_le_one (rszStabilityOf rsz)
    unfold rszDamp
    linarith
  · have := norm01_nonneg (rszStabilityOf rsz)
    unfold rszDamp
    linarith

/-- C8: the empty provocation sequence yields exactly `cr_scalar = 0.0`,
empty components and empty flags, for any configuration and macro signals. -/
theorem claim_C8_empty_provocations (cfg : CRConfig) (nur : NurSignal) (rsz : RszSignal) :
    compute_from_provocations cfg [] nur rsz =
      { cr_scalar := 0.0, components := [], flags := [] } := rfl

/-- C9: `compute_hmi` carries an error indicator exactly when the objective
probability is absent or `≤ 0`, and in that case `hmi_normalized = 0`. -/
theorem claim_C9_hmi_error_iff (m : ℝ) (o : Option ℝ) :
    ((compute_hmi m o).error.isSome ↔ ∀ x ∈ o, x ≤ 0) ∧
    ((compute_hmi m o).error.isSome → (compute_hmi m o).hmi_normalized = 0) := by
  cases o with
  | none =>
    simp only [compute_hmi]
    norm_num
    intro x hx
    exact absurd hx (by simp)
  | some x =>
    by_cases hx : x ≤ 0
    · simp only [compute_hmi, if_pos hx]
      refine ⟨?_, fun _ => by norm_num⟩
      simp [hx]
    · simp only [compute_hmi, if_neg hx]
      simp [hx]

/-- Witness for C9 at `market_expectation = 1`, `objective_probability = −2`. -/
theorem claim_C9_witness :
    (compute_hmi 1 (some (-2))).error.isSome ∧
    (compute_hmi 1 (some (-2))).hmi_normalized = 0 := by
  have h := claim_C9_hmi_error_iff 1 (some (-2))
  have he : (compute_hmi 1 (some (-2))).error.isSome := by
    refine h.1.mpr ?_
    intro x hx
    simp only [Option.mem_def, Option.some.injEq] at hx
    subst hx
    norm_num
  exact ⟨he, h.2 he⟩

/-- C10: under the default configuration (`global_dampen = 0.9`) the
chaotic-risk scalar never exceeds `0.9`, so its contribution to the
composite never exceeds `0.20 × 0.9 = 0.18`. -/
theorem claim_C10_cr_at_most_dampen (ps : List Provocation)
    (nur : NurSignal) (rsz : RszSignal) :
    (compute_from_provocations defaultConfig ps nur rsz).cr_scalar ≤ 0.9 ∧
    0.20 * (compute_from_provocations defaultConfig ps nur rsz).cr_scalar ≤ 0.18 := by
  have key : (compute_from_provocations defaultConfig ps nur rsz).cr_scalar ≤ 0.9 := by
    unfold compute_from_provocations
    split_ifs with h
    · norm_num
    · simp only [computeCR, defaultConfig]
      refine round6_le_nine_tenths (norm01_lt (by norm_num) ?_)
      exact ite_arctan_mul_damp_lt _ _ (by norm_num)
  exact ⟨key, by linarith⟩

/-- C6: for nonnegative weight mappings, the concentration computation
returns an error (and no result) exactly when the mapping is empty or the
weight sum is not positive. -/
theorem claim_C6_concentration_error_iff (ws : List (String × ℝ))
    (hnn : ∀ p ∈ ws, 0 ≤ p.2) :
    (∃ e, compute_hhi_structured ws = Except.error e) ↔
      (ws = [] ∨ ¬ 0 < totalWeight ws) := by
  have hnn2 : 0 ≤ totalWeight ws := by
    apply List.sum_nonneg
    intro x hx
    obtain ⟨p, hp, rfl⟩ := List.mem_map.mp hx
    exact hnn p hp
  rcases ws with _ | ⟨a, l⟩
  · exact ⟨fun _ => Or.inl rfl, fun _ => ⟨"No weights provided", rfl⟩⟩
  · by_cases h0 : totalWeight (a :: l) = 0
    · constructor
      · intro _
        right
        rw [h0]
        exact lt_irrefl 0
      · intro _
        exact ⟨"Total weights = 0", by simp [compute_hhi_structured, h0]⟩
    · have hpos : 0 < totalWeight (a :: l) := lt_of_le_of_ne hnn2 (Ne.symm h0)
      constructor
      · rintro ⟨e, he⟩
        rw [compute_hhi_ok_spec (a :: l) rfl h0] at he
        cases he
      · rintro (h | h)
        · cases h
        · exact absurd hpos h

/-- Witness for C6 at the zero-sum mapping `{"A": 0}`. -/
theorem claim_C6_witness :
    (∀ p ∈ [("A", (0 : ℝ))], 0 ≤ p.2) ∧
    (∃ e, compute_hhi_structured [("A", (0 : ℝ))] = Except.error e) := by
  have hnn : ∀ p ∈ [("A", (0 : ℝ))], 0 ≤ p.2 := by
    intro p hp
    fin_cases hp
    norm_num
  refine ⟨hnn, (claim_C6_concentration_error_iff [("A", (0 : ℝ))] hnn).mpr (Or.inr ?_)⟩
  norm_num [totalWeight]

/-- C4 counterexample: at three equal weights the returned `hhi` is
`round(1/3, 6) = 0.333333 < 1/3 = 1/n`, so the claimed range `[1/n, 1]`
fails for the rounded output field. -/
theorem claim_C4_range_counterexample :
    ∃ r, compute_hhi_structured [("A", (1 : ℝ)), ("B", 1), ("C", 1)] = Except.ok r ∧
      r.hhi < 1 / 3 := by
  have htot : totalWeight [("A", (1 : ℝ)), ("B", 1), ("C", 1)] = 3 := by
    norm_num [totalWeight]
  refine ⟨_, compute_hhi_ok_spec _ rfl (by rw [htot]; norm_num), ?_⟩
  have hsum : ((([("A", (1 : ℝ)), ("B", 1), ("C", 1)].map
      (fun p => p.2 / totalWeight [("A", (1 : ℝ)), ("B", 1), ("C", 1)])).map
        (fun x => x * x)).sum) = 1 / 3 := by
    rw [htot]
    norm_num
  show round6 _ < 1 / 3
  rw [hsum]
  have hr : round ((1 : ℝ) / 3 * 1000000) = 333333 := by
    rw [round_eq, show (1 : ℝ) / 3 * 1000000 + 1 / 2 = 2000003 / 6 by norm_num,
      Int.floor_eq_iff]
    constructor <;> norm_num
  rw [round6, hr]
  norm_num

/-- C4 (amended): for nonnegative weights with positive sum the returned
`hhi` lies within one rounding step below `1/n` (`hhi ∈ [1/n − 5·10⁻⁷, 1]`)
and `hhi_normalized ∈ [0, 1]`; equal weights with `n > 1` give
`hhi_normalized = 0` and a single holding gives `hhi_normalized = 1`. -/
theorem claim_C4_amended_hhi_ranges (ws : List (String × ℝ))
    (hnn : ∀ p ∈ ws, 0 ≤ p.2) (hpos : 0 < totalWeight ws) :
    ∃ r, compute_hhi_structured ws = Except.ok r ∧
      1 / (ws.length : ℝ) - 1 / 2000000 ≤ r.hhi ∧ r.hhi ≤ 1 ∧
      0 ≤ r.hhi_normalized ∧ r.hhi_normalized ≤ 1 ∧
      (∀ w : ℝ, (∀ p ∈ ws, p.2 = w) → 1 < ws.length → r.hhi_normalized = 0) ∧
      (ws.length = 1 → r.hhi_normalized = 1) := by
  have hne : ws.isEmpty = false := by
    cases ws with
    | nil => simp [totalWeight] at hpos
    | cons a l => rfl
  have h0 : totalWeight ws ≠ 0 := ne_of_gt hpos
  have hlen0 : ws ≠ [] := by
    intro h
    rw [h] at hne
    simp at hne
  have hlpos : 0 < ws.length := List.length_pos.mpr hlen0
  have hnR : (0 : ℝ) < ws.length := by exact_mod_cast hlpos
  have hsum1 : (ws.map (fun p => p.2 / totalWeight ws)).sum = 1 := by
    rw [list_sum_map_div]
    exact div_self h0
  have hmem : ∀ x ∈ ws.map (fun p => p.2 / totalWeight ws), 0 ≤ x ∧ x ≤ 1 := by
    intro x hx
    obtain ⟨p, hp, rfl⟩ := List.mem_map.mp hx
    have h2 : 0 ≤ p.2 := hnn p hp
    have h3 : p.2 ≤ totalWeight ws := by
      have hmm : p.2 ∈ ws.map (fun q => q.2) := List.mem_map_of_mem _ hp
      have hnn3 : ∀ y ∈ ws.map (fun q => q.2), 0 ≤ y := by
        intro y hy
        obtain ⟨q, hq, rfl⟩ := List.mem_map.mp hy
        exact hnn q hq
      exact List.single_le_sum hnn3 _ hmm
    exact ⟨div_nonneg h2 (le_of_lt hpos), (div_le_one hpos).mpr h3⟩
  have hhi_le : ((ws.map (fun p => p.2 / totalWeight ws)).map (fun x => x * x)).sum ≤ 1 := by
    calc ((ws.map (fun p => p.2 / totalWeight ws)).map (fun x => x * x)).sum
        ≤ ((ws.map (fun p => p.2 / totalWeight ws)).map (fun x => x)).sum := by
          apply List.sum_le_sum
          intro x hx
          have hb := hmem x hx
          nlinarith [hb.1, hb.2]
      _ = 1 := by simpa using hsum1
  have hhi_ge : 1 / (ws.length : ℝ) ≤
      ((ws.map (fun p => p.2 / totalWeight ws)).map (fun x => x * x)).sum := by
    have hcs := sq_sum_le_length_mul_sum_sq (ws.map (fun p => p.2 / totalWeight ws))
    rw [hsum1, List.length_map] at hcs
    rw [div_le_iff₀ hnR]
    nlinarith [hcs]
  have hnorm : 0 ≤ (if 1 < ws.length then
        (((ws.map (fun p => p.2 / totalWeight ws)).map (fun x => x * x)).sum
          - 1 / (ws.length : ℝ)) / (1 - 1 / (ws.length : ℝ)) else (1.0 : ℝ)) ∧
      (if 1 < ws.length then
        (((ws.map (fun p => p.2 / totalWeight ws)).map (fun x => x * x)).sum
          - 1 / (ws.length : ℝ)) / (1 - 1 / (ws.length : ℝ)) else (1.0 : ℝ)) ≤ 1 := by
    split_ifs with h1
    · have h2 : (2 : ℝ) ≤ ws.length := by exact_mod_cast h1
      have hden : 0 < 1 - 1 / (ws.length : ℝ) := by
        have hh : 1 / (ws.length : ℝ) ≤ 1 / 2 :=
          one_div_le_one_div_of_le (by norm_num) h2
        linarith
      constructor
      · apply div_nonneg _ (le_of_lt hden)
        linarith [hhi_ge]
      · rw [div_le_one hden]
        linarith [hhi_le]
    · norm_num
  refine ⟨_, compute_hhi_ok_spec ws hne h0, ?_, ?_, ?_, ?_, ?_, ?_⟩
  · show 1 / (ws.length : ℝ) - 1 / 2000000 ≤ round6 _
    linarith [@sub_le_round6 (((ws.map (fun p => p.2 / totalWeight ws)).map
      (fun x => x * x)).sum), hhi_ge]
  · exact round6_le_one hhi_le
  · exact round6_nonneg hnorm.1
  · exact round6_le_one hnorm.2
  · intro w hw hlen1
    have htw : totalWeight ws = ws.length * w := by
      simp only [totalWeight]
      exact list_sum_map_const ws _ w hw
    have hwpos : 0 < w := by
      by_contra hw0
      push_neg at hw0
      have hnw : (ws.length : ℝ) * w ≤ 0 :=
        mul_nonpos_of_nonneg_of_nonpos (le_of_lt hnR) hw0
      rw [htw] at hpos
      linarith
    have hpct : ∀ p ∈ ws, p.2 / totalWeight ws = 1 / (ws.length : ℝ) := by
      intro p hp
      rw [hw p hp, htw]
      field_simp
      ring
    have hhr1 : ((ws.map (fun p => p.2 / totalWeight ws)).map (fun x => x * x)).sum =
        (ws.length : ℝ) * (1 / (ws.length : ℝ) * (1 / (ws.length : ℝ))) := by
      rw [List.map_map]
      apply list_sum_map_const
      intro p hp
      simp only [Function.comp]
      rw [hpct p hp]
    show round6 _ = 0
    rw [if_pos hlen1, hhr1]
    have hzero : ((ws.length : ℝ) * (1 / (ws.length : ℝ) * (1 / (ws.length : ℝ)))
        - 1 / (ws.length : ℝ)) / (1 - 1 / (ws.length : ℝ)) = 0 := by
      have hN : (ws.length : ℝ) ≠ 0 := ne_of_gt hnR
      field_simp
    rw [hzero, round6_zero]
  · intro hlen1
    show round6 _ = 1
    rw [if_neg (by omega), show (1.0 : ℝ) = 1 by norm_num]
    exact round6_one

/-- `log 2 / log 10 = log10 2` lies in `(0.30102, 0.301076)`, pinned from the
decimal bounds on `log 2` and the inequalities `2^93 < 10^28` and
`10^59 < 2^196`. -/
lemma logratio_bounds :
    0.30102 < Real.log 2 / Real.log 10 ∧ Real.log 2 / Real.log 10 < 0.301076 := by
  have hl2lb := Real.log_two_gt_d9
  have hl2ub := Real.log_two_lt_d9
  have h10pos : (0 : ℝ) < Real.log 10 := Real.log_pos (by norm_num)
  have h1 : (93 : ℝ) * Real.log 2 < 28 * Real.log 10 := by
    have h := Real.log_lt_log (show (0 : ℝ) < 2 ^ 93 by positivity)
      (show (2 : ℝ) ^ 93 < 10 ^ 28 by norm_num)
    rw [Real.log_pow, Real.log_pow] at h
    exact_mod_cast h
  have h2 : (59 : ℝ) * Real.log 10 < 196 * Real.log 2 := by
    have h := Real.log_lt_log (show (0 : ℝ) < 10 ^ 59 by positivity)
      (show (10 : ℝ) ^ 59 < 2 ^ 196 by norm_num)
    rw [Real.log_pow, Real.log_pow] at h
    exact_mod_cast h
  constructor
  · rw [lt_div_iff₀ h10pos]
    linarith
  · rw [div_lt_iff₀ h10pos]
    linarith

/-- Taylor bounds at order 4: `e^(−log10 2) ∈ (0.7392, 0.7402)`. -/
lemma exp_neg_logratio_bounds :
    0.7392 < Real.exp (-(Real.log 2 / Real.log 10)) ∧
    Real.exp (-(Real.log 2 / Real.log 10)) < 0.7402 := by
  obtain ⟨ht1, ht2⟩ := logratio_bounds
  have htpos : 0 < Real.log 2 / Real.log 10 := by linarith
  have habs : |(-(Real.log 2 / Real.log 10))| ≤ 1 := by
    rw [abs_neg, abs_of_pos htpos]
    linarith
  have hb := @Real.exp_bound (-(Real.log 2 / Real.log 10)) habs 4 (by norm_num)
  have hsum : ∑ m ∈ Finset.range 4,
      (-(Real.log 2 / Real.log 10)) ^ m / (m.factorial : ℝ) =
      1 - Real.log 2 / Real.log 10 + (Real.log 2 / Real.log 10) ^ 2 / 2
        - (Real.log 2 / Real.log 10) ^ 3 / 6 := by
    simp [Finset.sum_range_succ, Nat.factorial]
    ring
  rw [hsum, abs_neg, abs_of_pos htpos] at hb
  norm_num [Nat.factorial] at hb
  obtain ⟨hb1, hb2⟩ := abs_le.mp hb
  have e2hi : (Real.log 2 / Real.log 10) ^ 2 < 0.301076 ^ 2 := by nlinarith
  have e2lo : 0.30102 ^ 2 < (Real.log 2 / Real.log 10) ^ 2 := by nlinarith
  have e3hi : (Real.log 2 / Real.log 10) ^ 3 < 0.301076 ^ 3 := by nlinarith
  have e3lo : 0.30102 ^ 3 < (Real.log 2 / Real.log 10) ^ 3 := by nlinarith
  have e4hi : (Real.log 2 / Real.log 10) ^ 4 < 0.301076 ^ 4 := by nlinarith
  have e4lo : 0 < (Real.log 2 / Real.log 10) ^ 4 := by positivity
  constructor
  · nlinarith [hb1]
  · nlinarith [hb2]

/-- `compute_hmi p p` in closed form for `p > 0`. -/
lemma hmi_equal_inputs_eq (p : ℝ) (hp : 0 < p) :
    compute_hmi p (some p) =
      { hmi := some 1
        hmi_normalized := 1 - Real.exp (-(Real.log 2 / Real.log 10))
        error := none } := by
  obtain ⟨hlo, hhi⟩ := exp_neg_logratio_bounds
  simp only [compute_hmi]
  rw [if_neg (not_le.mpr hp), div_self (ne_of_gt hp)]
  rw [show max (1 : ℝ) 0.0 = 1 from max_eq_left (by norm_num)]
  rw [show min (1 : ℝ) 1000000 = 1 from min_eq_left (by norm_num)]
  rw [show (1 : ℝ) + 1 = 2 from by norm_num]
  rw [show logTen 2 = Real.log 2 / Real.log 10 from rfl]
  rw [show min (1.0 : ℝ) (1 - Real.exp (-(Real.log 2 / Real.log 10))) =
      1 - Real.exp (-(Real.log 2 / Real.log 10)) from min_eq_right (by linarith)]
  rw [show max (0.0 : ℝ) (1 - Real.exp (-(Real.log 2 / Real.log 10))) =
      1 - Real.exp (-(Real.log 2 / Real.log 10)) from max_eq_right (by linarith)]

/-- C5 counterexample: at `p = 1` the returned `hmi_normalized` is below
`0.27`, more than `0.07` away from the claimed `≈ 0.335`. -/
theorem claim_C5_approx_counterexample :
    (compute_hmi 1 (some 1)).hmi_normalized < 0.27 ∧
    0.07 < |(compute_hmi 1 (some 1)).hmi_normalized - 0.335| := by
  rw [hmi_equal_inputs_eq 1 (by norm_num)]
  show (1 : ℝ) - Real.exp (-(Real.log 2 / Real.log 10)) < 0.27 ∧
    0.07 < |(1 : ℝ) - Real.exp (-(Real.log 2 / Real.log 10)) - 0.335|
  obtain ⟨hlo, hhi⟩ := exp_neg_logratio_bounds
  constructor
  · linarith
  · rw [abs_of_neg (by linarith)]
    linarith

/-- C5 (amended): for every `p > 0`, `compute_hmi(p, p)` returns `hmi = 1.0`
and `hmi_normalized = 1 − e^(−log10 2) ≈ 0.26` (within `0.003`). -/
theorem claim_C5_amended_hmi_equal_inputs (p : ℝ) (hp : 0 < p) :
    (compute_hmi p (some p)).hmi = some 1 ∧
    (compute_hmi p (some p)).hmi_normalized = 1 - Real.exp (-(Real.log 2 / Real.log 10)) ∧
    |(compute_hmi p (some p)).hmi_normalized - 0.26| < 0.003 := by
  rw [hmi_equal_inputs_eq p hp]
  refine ⟨rfl, rfl, ?_⟩
  obtain ⟨hlo, hhi⟩ := exp_neg_logratio_bounds
  show |(1 : ℝ) - Real.exp (-(Real.log 2 / Real.log 10)) - 0.26| < 0.003
  rw [abs_lt]
  constructor <;> linarith

lemma extractProv_benign {q : RawProv} (h : provBenign q) : extractProv q = some (liftProv q) := by
  obtain ⟨hi, hc⟩ := h
  rcases hi with h1 | h1 | ⟨x, h1⟩ <;> rcases hc with h2 | h2 | ⟨y, h2⟩ <;>
    simp [extractProv, liftProv, h1, h2, pyOrZero, pyFloat]

lemma mapM_extractProv {raws : List RawProv} (h : ∀ q ∈ raws, provBenign q) :
    raws.mapM extractProv = some (raws.map liftProv) := by
  induction raws with
  | nil => rfl
  | cons a l ih =>
    rw [List.mapM_cons, extractProv_benign (h a (by simp)),
      ih (fun q hq => h q (by simp [hq]))]
    rfl

lemma nurSeverityDyn_lift (n : RawNur) (hn : benignVal n.severity_score) :
    nurSeverityDyn n = nurSeverityOf (liftNur n) := by
  obtain ⟨ss, sv⟩ := n
  rcases hn with hn1 | ⟨x, hn1⟩
  · cases hn1
    rcases sv with _ | v
    · simp [nurSeverityDyn, nurSeverityOf, liftNur, degradePy, pyOrZero, pyFloat]
    · rcases v with _ | y | _ <;>
        simp [nurSeverityDyn, nurSeverityOf, liftNur, degradePy, pyOrZero, pyFloat]
  · cases hn1
    simp [nurSeverityDyn, nurSeverityOf, liftNur, degradePy, pyOrZero, pyFloat]

lemma rszStabilityDyn_lift (r : RawRsz) :
    rszStabilityDyn r = rszStabilityOf (liftRsz r) := by
  obtain ⟨ss, aw⟩ := r
  rcases ss with _ | v
  · rcases aw with _ | w
    · simp [rszStabilityDyn, rszStabilityOf, liftRsz, degradePy, pyOrZero, pyFloat]
    · rcases w with _ | y | _ <;>
        simp [rszStabilityDyn, rszStabilityOf, liftRsz, degradePy, pyOrZero, pyFloat]
  · rcases v with _ | y | _ <;>
      simp [rszStabilityDyn, rszStabilityOf, liftRsz, degradePy, pyOrZero, pyFloat]

lemma crDyn_lift (cfg : CRConfig) (raws : List RawProv) (n : RawNur) (r : RawRsz)
    (hn : benignVal n.severity_score) (hp : ∀ q ∈ raws, provBenign q) :
    crDyn cfg raws n r =
      some (compute_from_provocations cfg (raws.map liftProv) (liftNur n) (liftRsz r)) := by
  unfold crDyn compute_from_provocations
  rcases raws with _ | ⟨a, l⟩
  · simp
  · rw [mapM_extractProv hp]
    simp only [List.isEmpty_cons, List.map_cons, Bool.false_eq_true, if_false]
    rw [nurSeverityDyn_lift n hn, rszStabilityDyn_lift r]

/-- C7 counterexample: `nur = {"severity_score": None}` (with empty portfolio,
no provocations and all other fields absent) makes `integrate` raise a
`TypeError` at the composite step instead of degrading the field to `0`. -/
theorem claim_C7_exception_counterexample :
    integrateDyn [] { severity_score := some PyVal.vnone, severity := none }
      { stability_score := none, action_weight := none } { cycle_pressure := none }
      none none [] [] = none := rfl

/-- C7 (amended): fields that are absent (or, for provocation fields, also
`None`) degrade to the neutral default `0` and the pipeline completes,
agreeing with the well-typed semantics; the chaotic-risk layer degrades any
malformed macro field.  (A present truthy non-numeric macro score or
provocation field instead raises, as the counterexample shows.) -/
theorem claim_C7_amended_degradation (portfolio : List (String × ℝ)) (n : RawNur)
    (r : RawRsz) (c : RawCycles) (me op : Option ℝ) (sents : List ℝ)
    (raws : List RawProv) (hn : benignVal n.severity_score)
    (hr : benignVal r.action_weight) (hc : benignVal c.cycle_pressure)
    (hp : ∀ q ∈ raws, provBenign q) :
    integrateDyn portfolio n r c me op sents raws =
      some (integrate portfolio (liftNur n) (liftRsz r) (liftCycles c) me op sents
        (raws.map liftProv)) := by
  unfold integrateDyn integrate
  rw [crDyn_lift defaultConfig raws n r hn hp]
  rcases hn with hn1 | ⟨x, hn1⟩ <;> rcases hr with hr1 | ⟨y, hr1⟩ <;>
    rcases hc with hc1 | ⟨z, hc1⟩ <;>
      simp [hn1, hr1, hc1, liftNur, liftRsz, liftCycles, pyFloat]

/-- Witness for C7 (amended) at a concrete benign input with one provocation
whose confidence is `None` and one absent macro field. -/
theorem claim_C7_witness :
    integrateDyn [("A", (1 : ℝ))]
      { severity_score := some (PyVal.num 0.5), severity := none }
      { stability_score := none, action_weight := some (PyVal.num 0.25) }
      { cycle_pressure := none } none none []
      [{ intensity := some (PyVal.num 2), source_type := some "institutional",
         confidence := some PyVal.vnone, vector := some "media" }] =
      some (integrate [("A", (1 : ℝ))]
        (liftNur { severity_score := some (PyVal.num 0.5), severity := none })
        (liftRsz { stability_score := none, action_weight := some (PyVal.num 0.25) })
        (liftCycles { cycle_pressure := none }) none none []
        ([{ intensity := some (PyVal.num 2), source_type := some "institutional",
            confidence := some PyVal.vnone, vector := some "media" }].map liftProv)) := by
  apply claim_C7_amended_degradation
  · exact Or.inr ⟨0.5, rfl⟩
  · exact Or.inr ⟨0.25, rfl⟩
  · exact Or.inl rfl
  · intro q hq
    fin_cases hq
    exact ⟨Or.inr (Or.inr ⟨2, rfl⟩), Or.inr (Or.inl rfl)⟩

/-- Witness for C5 at `p = 2`. -/
theorem claim_C5_witness :
    (compute_hmi 2 (some 2)).hmi = some 1 ∧
    (compute_hmi 2 (some 2)).hmi_normalized = 1 - Real.exp (-(Real.log 2 / Real.log 10)) ∧
    |(compute_hmi 2 (some 2)).hmi_normalized - 0.26| < 0.003 :=
  claim_C5_amended_hmi_equal_inputs 2 (by norm_num)

/-- Witness for C4 at the two-element equal mapping `{"A": 2, "B": 2}`. -/
theorem claim_C4_witness :
    ∃ r, compute_hhi_structured [("A", (2 : ℝ)), ("B", 2)] = Except.ok r ∧
      1 / 2 - 1 / 2000000 ≤ r.hhi ∧ r.hhi ≤ 1 ∧
      0 ≤ r.hhi_normalized ∧ r.hhi_normalized ≤ 1 ∧ r.hhi_normalized = 0 := by
  obtain ⟨r, h1, h2, h3, h4, h5, h6, _⟩ :=
    claim_C4_amended_hhi_ranges [("A", (2 : ℝ)), ("B", 2)]
      (by intro p hp; fin_cases hp <;> norm_num)
      (by norm_num [totalWeight])
  refine ⟨r, h1, by simpa using h2, h3, h4, h5, ?_⟩
  apply h6 2
  · intro p hp
    fin_cases hp <;> norm_num
  · norm_num

end
